import Mathlib

/-!
Shallow embedding of the nopi-fin personal-finance backend handlers.

Each definition mirrors one TypeScript handler from `src/server/src/handlers`
(or the implemented variant of that handler stored elsewhere in the
repository when the file at the canonical path is an explicit placeholder).
Database tables become Lean lists, `Date` values become integer timestamps
(epoch milliseconds), JS numbers become rationals, and thrown errors become
`Except.error`.
-/

/-- Transaction type enum (`transactionTypeEnum = z.enum(['income', 'expense'])`). -/
inductive TxnType where
  | income
  | expense
deriving DecidableEq, Repr

/-- Transaction category enum
(`transactionCategoryEnum = z.enum(['DD', 'ADD', 'PBH', 'PAD', 'DLL'])`). -/
inductive Category where
  | DD
  | ADD
  | PBH
  | PAD
  | DLL
deriving DecidableEq, Repr

/-- Report period enum (`reportPeriodEnum = z.enum(['weekly','monthly','yearly','custom'])`). -/
inductive Period where
  | weekly
  | monthly
  | yearly
  | custom
deriving DecidableEq, Repr

/-- A row of `usersTable`. Timestamps are epoch milliseconds. -/
structure User where
  id : String
  email : String
  created_at : Int
  updated_at : Int
deriving DecidableEq, Repr

/-- A row of `transactionsTable` (numeric `amount` modelled as a rational). -/
structure Txn where
  id : Nat
  user_id : String
  type : TxnType
  amount : ℚ
  category : Category
  description : Option String
  transaction_date : Int
  created_at : Int
  updated_at : Int
deriving DecidableEq, Repr

/-- A row of `notesTable`. -/
structure Note where
  id : Nat
  user_id : String
  title : String
  content : String
  created_at : Int
  updated_at : Int
deriving DecidableEq, Repr

/-- Input of `deleteTransaction` (`deleteTransactionInputSchema`). -/
structure DeleteTransactionInput where
  id : Nat
  user_id : String
deriving DecidableEq, Repr

/-- Input of `deleteNote` (`deleteNoteInputSchema`). -/
structure DeleteNoteInput where
  id : Nat
  user_id : String
deriving DecidableEq, Repr

/-- `deleteTransaction` from `handlers/delete_transaction.ts`: selects the rows
matching both `id` and `user_id`; if none exist it throws
"Transaction not found or access denied", otherwise it deletes them and
returns `{ success: true }`.  The returned flag is modelled as the `Bool`
payload of the `Except`. -/
def deleteTransaction (txns : List Txn) (input : DeleteTransactionInput) :
    Except String Bool :=
  let existingTransaction :=
    txns.filter fun t => t.id = input.id ∧ t.user_id = input.user_id
  if existingTransaction.length = 0 then
    Except.error "Transaction not found or access denied"
  else
    Except.ok true

/-- `deleteNote` as implemented in the repository (the second document stored in
`handlers/get_dashboard_data.ts`; the file at `handlers/delete_note.ts` is an
explicit placeholder): selects the rows matching both `id` and `user_id`;
if none exist it returns `{ success: false }`, otherwise it deletes them and
returns `success = (rowCount > 0)`. -/
def deleteNote (notes : List Note) (input : DeleteNoteInput) :
    Except String Bool :=
  let existingNote :=
    notes.filter fun n => n.id = input.id ∧ n.user_id = input.user_id
  if existingNote.length = 0 then
    Except.ok false
  else
    Except.ok (decide (existingNote.length > 0))

/-- C1: whenever the `(id, user_id)` input pair does not jointly match any stored
record — including when the `id` exists under a different owner — `deleteTransaction`
fails with "Transaction not found or access denied" and `deleteNote` returns
`success = false`; neither reports success, and a mismatched-owner delete takes
exactly the same branch as a delete of a non-existent record. -/
theorem delete_requires_joint_match (txns : List Txn) (notes : List Note)
    (inT : DeleteTransactionInput) (inN : DeleteNoteInput)
    (hT : ¬ ∃ t ∈ txns, t.id = inT.id ∧ t.user_id = inT.user_id)
    (hN : ¬ ∃ n ∈ notes, n.id = inN.id ∧ n.user_id = inN.user_id) :
    deleteTransaction txns inT = Except.error "Transaction not found or access denied" ∧
      deleteNote notes inN = Except.ok false := by
  have hTfilter : txns.filter (fun t => t.id = inT.id ∧ t.user_id = inT.user_id) = [] := by
    rw [List.filter_eq_nil_iff]
    intro t ht
    simp only [decide_eq_true_eq]
    exact fun hc => hT ⟨t, ht, hc⟩
  have hNfilter : notes.filter (fun n => n.id = inN.id ∧ n.user_id = inN.user_id) = [] := by
    rw [List.filter_eq_nil_iff]
    intro n hn
    simp only [decide_eq_true_eq]
    exact fun hc => hN ⟨n, hn, hc⟩
  constructor
  · simp only [deleteTransaction, hTfilter, List.length_nil]
    exact if_pos trivial
  · simp only [deleteNote, hNfilter, List.length_nil]
    exact if_pos trivial

/-- A stored transaction and note owned by user `"alice"`. -/
def aliceTxn : Txn :=
  { id := 1, user_id := "alice", type := TxnType.income, amount := 10,
    category := Category.DD, description := none,
    transaction_date := 0, created_at := 0, updated_at := 0 }

/-- A stored note owned by `"alice"`. -/
def aliceNote : Note :=
  { id := 1, user_id := "alice", title := "t", content := "c",
    created_at := 0, updated_at := 0 }

theorem delete_requires_joint_match_witness :
    deleteTransaction [aliceTxn] ⟨1, "bob"⟩ =
        Except.error "Transaction not found or access denied" ∧
      deleteNote [aliceNote] ⟨1, "bob"⟩ = Except.ok false :=
  delete_requires_joint_match [aliceTxn] [aliceNote] ⟨1, "bob"⟩ ⟨1, "bob"⟩
    (by decide) (by decide)

/-- Input of `generateReport` (`generateReportInputSchema`). -/
structure GenerateReportInput where
  user_id : String
  period : Period
  start_date : Option Int
  end_date : Option Int
deriving DecidableEq, Repr

/-- The clock-derived instants that `calculateDateRange` reads off `new Date()`
via JS calendar arithmetic: the current instant, the instant seven days ago,
and the first/last instants of the current month and year.  Calendar
computation itself is environmental, so these are parameters of the model. -/
structure ClockEnv where
  now : Int
  weekAgo : Int
  monthStart : Int
  monthEnd : Int
  yearStart : Int
  yearEnd : Int
deriving DecidableEq, Repr

/-- `calculateDateRange` from the implemented `generateReport`
(`src/unnamed/part_012`): for `custom` both dates must be supplied, otherwise
it throws; the named periods use the clock-derived boundaries. -/
def calculateDateRange (env : ClockEnv) (input : GenerateReportInput) :
    Except String (Int × Int) :=
  match input.period with
  | Period.custom =>
    match input.start_date, input.end_date with
    | some s, some e => Except.ok (s, e)
    | _, _ => Except.error "start_date and end_date are required for custom period"
  | Period.weekly => Except.ok (env.weekAgo, env.now)
  | Period.monthly => Except.ok (env.monthStart, env.monthEnd)
  | Period.yearly => Except.ok (env.yearStart, env.yearEnd)

/-- The five-category record `{'DD': 0, 'ADD': 0, 'PBH': 0, 'PAD': 0, 'DLL': 0}`
used to initialise `income_by_category` and `expenses_by_category`, modelled
as an association list so that key presence is observable. -/
def initCatMap : List (Category × ℚ) :=
  [(Category.DD, 0), (Category.ADD, 0), (Category.PBH, 0), (Category.PAD, 0), (Category.DLL, 0)]

/-- `map[category] += amount` on a category record: bump the value stored under
key `c` by `a`, leaving other keys untouched. -/
def bumpCat (m : List (Category × ℚ)) (c : Category) (a : ℚ) : List (Category × ℚ) :=
  m.map fun p => if p.1 = c then (p.1, p.2 + a) else p

/-- Accumulator of the aggregation loop in `generateReport`. -/
structure AggState where
  total_income : ℚ
  total_expenses : ℚ
  inc : List (Category × ℚ)
  expc : List (Category × ℚ)
deriving DecidableEq, Repr

/-- One iteration of `generateReport`'s `for (const transaction of transactions)`
loop: income adds to `total_income` and the income category record, anything
else to `total_expenses` and the expense category record. -/
def processTxn (s : AggState) (t : Txn) : AggState :=
  match t.type with
  | TxnType.income =>
      { s with total_income := s.total_income + t.amount,
               inc := bumpCat s.inc t.category t.amount }
  | TxnType.expense =>
      { s with total_expenses := s.total_expenses + t.amount,
               expc := bumpCat s.expc t.category t.amount }

/-- Descending order on the business date, mirroring
`orderBy(desc(transactionsTable.transaction_date))`. -/
abbrev dateDesc (a b : Txn) : Prop := b.transaction_date ≤ a.transaction_date

instance : DecidableRel dateDesc := fun a b =>
  inferInstanceAs (Decidable (b.transaction_date ≤ a.transaction_date))

/-- The report record returned by `generateReport` (`reportDataSchema`). -/
structure ReportData where
  period : Period
  start_date : Int
  end_date : Int
  total_income : ℚ
  total_expenses : ℚ
  net_balance : ℚ
  transactions : List Txn
  income_by_category : List (Category × ℚ)
  expenses_by_category : List (Category × ℚ)
deriving DecidableEq, Repr

/-- The success path of `generateReport` once the date range `[s, e]` is known:
select the user's transactions with `s ≤ transaction_date ≤ e`, order them by
business date descending, aggregate them in one pass, and assemble the report
with `net_balance = total_income - total_expenses`. -/
def buildReport (uid : String) (p : Period) (s e : Int) (txns : List Txn) : ReportData :=
  let transactions :=
    List.insertionSort dateDesc
      (txns.filter fun t =>
        t.user_id = uid ∧ s ≤ t.transaction_date ∧ t.transaction_date ≤ e)
  let st := transactions.foldl processTxn ⟨0, 0, initCatMap, initCatMap⟩
  { period := p
    start_date := s
    end_date := e
    total_income := st.total_income
    total_expenses := st.total_expenses
    net_balance := st.total_income - st.total_expenses
    transactions := transactions
    income_by_category := st.inc
    expenses_by_category := st.expc }

/-- `generateReport` from `src/unnamed/part_012` (the file
`handlers/generate_report.ts` is an explicit placeholder): verify the user
exists, resolve the date range, then aggregate the user's transactions in
the inclusive range. -/
def generateReport (users : List User) (txns : List Txn) (env : ClockEnv)
    (input : GenerateReportInput) : Except String ReportData :=
  let uid := input.user_id
  if (users.filter fun u => u.id = input.user_id).length = 0 then
    Except.error s!"User not found: {uid}"
  else
    match calculateDateRange env input with
    | Except.error e => Except.error e
    | Except.ok (s, e) => Except.ok (buildReport input.user_id input.period s e txns)

/-- C2: with `period = custom` and either date missing, `generateReport` fails
(with the `calculateDateRange` validation error when the user exists, or the
user-not-found error otherwise) and never returns a report. -/
theorem generateReport_custom_requires_dates (users : List User) (txns : List Txn)
    (env : ClockEnv) (input : GenerateReportInput)
    (hp : input.period = Period.custom)
    (hd : input.start_date = none ∨ input.end_date = none) :
    ∃ e, generateReport users txns env input = Except.error e := by
  have hcal : calculateDateRange env input =
      Except.error "start_date and end_date are required for custom period" := by
    unfold calculateDateRange
    rw [hp]
    rcases hd with h1 | h1 <;>
      cases hs : input.start_date <;> cases he : input.end_date <;> simp_all
  by_cases h : (users.filter fun u => u.id = input.user_id).length = 0
  · exact ⟨s!"User not found: {input.user_id}", by simp [generateReport, h]⟩
  · exact ⟨"start_date and end_date are required for custom period",
      by simp [generateReport, h, hcal]⟩

/-- Sample clock environment (all boundaries at concrete instants). -/
def sampleEnv : ClockEnv :=
  { now := 100, weekAgo := 93, monthStart := 90, monthEnd := 120,
    yearStart := 0, yearEnd := 365 }

/-- Sample stored user. -/
def sampleUser : User := { id := "u1", email := "u1@x.com", created_at := 0, updated_at := 0 }

theorem generateReport_custom_requires_dates_witness :
    ∃ e, generateReport [sampleUser] [] sampleEnv
        ⟨"u1", Period.custom, none, none⟩ = Except.error e :=
  generateReport_custom_requires_dates [sampleUser] [] sampleEnv
    ⟨"u1", Period.custom, none, none⟩ rfl (Or.inl rfl)

/-- `bumpCat` never changes the key list of a category record. -/
theorem bumpCat_map_fst (m : List (Category × ℚ)) (c : Category) (a : ℚ) :
    (bumpCat m c a).map Prod.fst = m.map Prod.fst := by
  simp only [bumpCat, List.map_map]
  refine List.map_congr_left fun p _ => ?_
  by_cases h : p.1 = c <;> simp [h]

/-- `bumpCat` on an absent key is the identity. -/
theorem bumpCat_of_not_mem (m : List (Category × ℚ)) (c : Category) (a : ℚ)
    (h : c ∉ m.map Prod.fst) : bumpCat m c a = m := by
  induction m with
  | nil => rfl
  | cons p t ih =>
      simp only [List.map_cons, List.mem_cons, not_or] at h
      simp only [bumpCat, List.map_cons] at ih ⊢
      rw [if_neg fun hc => h.1 hc.symm, ih h.2]

/-- `bumpCat` adds exactly `a` to the total of the values when the key occurs
exactly once (which the fixed five-key records guarantee). -/
theorem bumpCat_sum (m : List (Category × ℚ)) (c : Category) (a : ℚ)
    (hmem : c ∈ m.map Prod.fst) (hnd : (m.map Prod.fst).Nodup) :
    ((bumpCat m c a).map Prod.snd).sum = (m.map Prod.snd).sum + a := by
  induction m with
  | nil => simp at hmem
  | cons p t ih =>
      simp only [List.map_cons, List.nodup_cons] at hnd
      by_cases hp : p.1 = c
      · have hct : c ∉ t.map Prod.fst := hp ▸ hnd.1
        simp only [bumpCat, List.map_cons, if_pos hp]
        have ht : bumpCat t c a = t := bumpCat_of_not_mem t c a hct
        simp only [bumpCat] at ht
        rw [ht]
        simp only [List.sum_cons]
        ring
      · have hct : c ∈ t.map Prod.fst := by
          rcases List.mem_cons.mp hmem with h | h
          · exact absurd h.symm hp
          · exact h
        simp only [bumpCat, List.map_cons, if_neg hp]
        have := ih hct hnd.2
        simp only [bumpCat] at this
        simp only [List.sum_cons, this]
        ring

/-- An entry under a different key survives `bumpCat` unchanged. -/
theorem bumpCat_mem_of_ne (m : List (Category × ℚ)) (c c' : Category) (q a : ℚ)
    (h : (c, q) ∈ m) (hne : c ≠ c') : (c, q) ∈ bumpCat m c' a := by
  have := List.mem_map_of_mem
    (f := fun p : Category × ℚ => if p.1 = c' then (p.1, p.2 + a) else p) h
  simpa [bumpCat, hne] using this

/-- Invariant of the aggregation loop: both category records keep exactly the
five initial keys, and their value totals track the two running totals. -/
def aggOk (s : AggState) : Prop :=
  s.inc.map Prod.fst = initCatMap.map Prod.fst ∧
  s.expc.map Prod.fst = initCatMap.map Prod.fst ∧
  (s.inc.map Prod.snd).sum = s.total_income ∧
  (s.expc.map Prod.snd).sum = s.total_expenses

theorem aggOk_init : aggOk ⟨0, 0, initCatMap, initCatMap⟩ := by
  refine ⟨rfl, rfl, ?_, ?_⟩ <;> simp [initCatMap]

theorem aggOk_processTxn (s : AggState) (t : Txn) (h : aggOk s) :
    aggOk (processTxn s t) := by
  obtain ⟨hik, hek, his, hes⟩ := h
  have hmemi : t.category ∈ s.inc.map Prod.fst := by
    rw [hik]; cases t.category <;> simp [initCatMap]
  have hmeme : t.category ∈ s.expc.map Prod.fst := by
    rw [hek]; cases t.category <;> simp [initCatMap]
  have hndi : (s.inc.map Prod.fst).Nodup := by rw [hik]; simp [initCatMap]
  have hnde : (s.expc.map Prod.fst).Nodup := by rw [hek]; simp [initCatMap]
  cases ht : t.type with
  | income =>
      exact ⟨by simpa [processTxn, ht, bumpCat_map_fst] using hik, by simpa [processTxn, ht] using hek,
        by simp [processTxn, ht, bumpCat_sum _ _ _ hmemi hndi, his],
        by simpa [processTxn, ht] using hes⟩
  | expense =>
      exact ⟨by simpa [processTxn, ht] using hik, by simpa [processTxn, ht, bumpCat_map_fst] using hek,
        by simpa [processTxn, ht] using his,
        by simp [processTxn, ht, bumpCat_sum _ _ _ hmeme hnde, hes]⟩

theorem aggOk_foldl (l : List Txn) (s : AggState) (h : aggOk s) :
    aggOk (l.foldl processTxn s) := by
  induction l generalizing s with
  | nil => exact h
  | cons t r ih => exact ih _ (aggOk_processTxn s t h)

/-- If no processed transaction is an income transaction in category `c`, the
income record keeps its `(c, 0)` entry through the loop. -/
theorem foldl_keeps_zero_inc (l : List Txn) (c : Category) (s : AggState)
    (h0 : (c, (0:ℚ)) ∈ s.inc)
    (hl : ∀ t ∈ l, t.type = TxnType.income → t.category ≠ c) :
    (c, (0:ℚ)) ∈ (l.foldl processTxn s).inc := by
  induction l generalizing s with
  | nil => exact h0
  | cons t r ih =>
      refine ih _ ?_ fun x hx => hl x (List.mem_cons_of_mem _ hx)
      cases ht : t.type with
      | income =>
          have hne : c ≠ t.category := fun hc => hl t (List.mem_cons_self _ _) ht hc.symm
          simpa [processTxn, ht] using bumpCat_mem_of_ne s.inc c t.category 0 t.amount h0 hne
      | expense => simpa [processTxn, ht] using h0

/-- Mirror of `foldl_keeps_zero_inc` for the expense record. -/
theorem foldl_keeps_zero_expc (l : List Txn) (c : Category) (s : AggState)
    (h0 : (c, (0:ℚ)) ∈ s.expc)
    (hl : ∀ t ∈ l, t.type = TxnType.expense → t.category ≠ c) :
    (c, (0:ℚ)) ∈ (l.foldl processTxn s).expc := by
  induction l generalizing s with
  | nil => exact h0
  | cons t r ih =>
      refine ih _ ?_ fun x hx => hl x (List.mem_cons_of_mem _ hx)
      cases ht : t.type with
      | expense =>
          have hne : c ≠ t.category := fun hc => hl t (List.mem_cons_self _ _) ht hc.symm
          simpa [processTxn, ht] using bumpCat_mem_of_ne s.expc c t.category 0 t.amount h0 hne
      | income => simpa [processTxn, ht] using h0

/-- C3: every report returned by `generateReport` satisfies
`net_balance = total_income - total_expenses` exactly. -/
theorem generateReport_net_balance (users : List User) (txns : List Txn)
    (env : ClockEnv) (input : GenerateReportInput) (r : ReportData)
    (h : generateReport users txns env input = Except.ok r) :
    r.net_balance = r.total_income - r.total_expenses := by
  simp only [generateReport] at h
  split at h
  · exact absurd h (by simp)
  · split at h
    · exact absurd h (by simp)
    · obtain rfl : buildReport input.user_id input.period _ _ txns = r :=
        (Except.ok.injEq _ _).mp h
      simp [buildReport]

/-- Sample report input: a custom period with both dates supplied. -/
def sampleInput : GenerateReportInput := ⟨"u1", Period.custom, some 0, some 10⟩

/-- The report `generateReport` produces for `sampleInput` over an empty
transaction table. -/
def sampleReport : ReportData := buildReport "u1" Period.custom 0 10 []

theorem generateReport_net_balance_witness :
    sampleReport.net_balance = sampleReport.total_income - sampleReport.total_expenses :=
  generateReport_net_balance [sampleUser] [] sampleEnv sampleInput sampleReport (by rfl)

/-- The aggregation loop, run from the initial state over any transaction list,
yields category records with all five keys (inactive keys keeping their `0`
entry) whose value totals equal the running totals. -/
theorem agg_buckets (l : List Txn) :
    (∀ c, ∃ q, (c, q) ∈ (l.foldl processTxn ⟨0, 0, initCatMap, initCatMap⟩).inc) ∧
    (∀ c, ∃ q, (c, q) ∈ (l.foldl processTxn ⟨0, 0, initCatMap, initCatMap⟩).expc) ∧
    (∀ c, (∀ t ∈ l, t.type = TxnType.income → t.category ≠ c) →
      (c, (0:ℚ)) ∈ (l.foldl processTxn ⟨0, 0, initCatMap, initCatMap⟩).inc) ∧
    (∀ c, (∀ t ∈ l, t.type = TxnType.expense → t.category ≠ c) →
      (c, (0:ℚ)) ∈ (l.foldl processTxn ⟨0, 0, initCatMap, initCatMap⟩).expc) ∧
    ((l.foldl processTxn ⟨0, 0, initCatMap, initCatMap⟩).inc.map Prod.snd).sum =
      (l.foldl processTxn ⟨0, 0, initCatMap, initCatMap⟩).total_income ∧
    ((l.foldl processTxn ⟨0, 0, initCatMap, initCatMap⟩).expc.map Prod.snd).sum =
      (l.foldl processTxn ⟨0, 0, initCatMap, initCatMap⟩).total_expenses := by
  obtain ⟨hik, hek, his, hes⟩ :=
    aggOk_foldl l ⟨0, 0, initCatMap, initCatMap⟩ aggOk_init
  refine ⟨?_, ?_, ?_, ?_, his, hes⟩
  · intro c
    have hc : c ∈ (l.foldl processTxn ⟨0, 0, initCatMap, initCatMap⟩).inc.map Prod.fst := by
      rw [hik]; cases c <;> simp [initCatMap]
    obtain ⟨p, hp, hpc⟩ := List.mem_map.mp hc
    refine ⟨p.2, ?_⟩
    rw [← hpc]
    simpa using hp
  · intro c
    have hc : c ∈ (l.foldl processTxn ⟨0, 0, initCatMap, initCatMap⟩).expc.map Prod.fst := by
      rw [hek]; cases c <;> simp [initCatMap]
    obtain ⟨p, hp, hpc⟩ := List.mem_map.mp hc
    refine ⟨p.2, ?_⟩
    rw [← hpc]
    simpa using hp
  · intro c hc
    exact foldl_keeps_zero_inc l c ⟨0, 0, initCatMap, initCatMap⟩
      (by cases c <;> simp [initCatMap]) hc
  · intro c hc
    exact foldl_keeps_zero_expc l c ⟨0, 0, initCatMap, initCatMap⟩
      (by cases c <;> simp [initCatMap]) hc

/-- C4: every report returned by `generateReport` carries category records
containing all five categories (an inactive category keeps its explicit `0`
entry), and the five income buckets sum to `total_income` while the five
expense buckets sum to `total_expenses`. -/
theorem generateReport_category_buckets (users : List User) (txns : List Txn)
    (env : ClockEnv) (input : GenerateReportInput) (r : ReportData)
    (h : generateReport users txns env input = Except.ok r) :
    (∀ c, ∃ q, (c, q) ∈ r.income_by_category) ∧
    (∀ c, ∃ q, (c, q) ∈ r.expenses_by_category) ∧
    (∀ c, (∀ t ∈ r.transactions, t.type = TxnType.income → t.category ≠ c) →
      (c, (0:ℚ)) ∈ r.income_by_category) ∧
    (∀ c, (∀ t ∈ r.transactions, t.type = TxnType.expense → t.category ≠ c) →
      (c, (0:ℚ)) ∈ r.expenses_by_category) ∧
    (r.income_by_category.map Prod.snd).sum = r.total_income ∧
    (r.expenses_by_category.map Prod.snd).sum = r.total_expenses := by
  simp only [generateReport] at h
  split at h
  · exact absurd h (by simp)
  · split at h
    · exact absurd h (by simp)
    · obtain rfl : buildReport input.user_id input.period _ _ txns = r :=
        (Except.ok.injEq _ _).mp h
      exact agg_buckets _

theorem generateReport_category_buckets_witness :
    (sampleReport.income_by_category.map Prod.snd).sum = sampleReport.total_income :=
  (generateReport_category_buckets [sampleUser] [] sampleEnv sampleInput sampleReport
    (by rfl)).2.2.2.2.1

/-- Input of `createTransaction` (`createTransactionInputSchema`); `description`
is nullable and optional, already collapsed to `Option String` here as JS does
with `input.description || null`. -/
structure CreateTransactionInput where
  user_id : String
  type : TxnType
  amount : ℚ
  category : Category
  description : Option String
  transaction_date : Int
deriving DecidableEq, Repr

/-- JS `input.description || null`: `undefined`, `null` and `""` all collapse
to `null`. -/
def jsDescOrNull (o : Option String) : Option String :=
  match o with
  | some s => if s = "" then none else some s
  | none => none

/-- `createTransaction` from `src/unnamed/part_013` (the file
`handlers/create_transaction.ts` is an explicit placeholder): looks the user
up; if absent it throws, otherwise it inserts the row (with the
store-assigned id and timestamps) and returns it. -/
def createTransaction (users : List User) (txns : List Txn)
    (input : CreateTransactionInput) (newId : Nat) (now : Int) :
    Except String (Txn × List Txn) :=
  if (users.filter fun u => u.id = input.user_id).length = 0 then
    let uid := input.user_id
    Except.error s!"User with id {uid} not found"
  else
    let t : Txn :=
      { id := newId, user_id := input.user_id, type := input.type,
        amount := input.amount, category := input.category,
        description := jsDescOrNull input.description,
        transaction_date := input.transaction_date,
        created_at := now, updated_at := now }
    Except.ok (t, txns ++ [t])

/-- C5: `createTransaction` fails when `user_id` matches no stored user, and
every transaction it does return (and persist) references a stored user. -/
theorem createTransaction_user_check (users : List User) (txns : List Txn)
    (input : CreateTransactionInput) (newId : Nat) (now : Int) :
    ((¬ ∃ u ∈ users, u.id = input.user_id) →
      ∃ e, createTransaction users txns input newId now = Except.error e) ∧
    (∀ t db', createTransaction users txns input newId now = Except.ok (t, db') →
      (∃ u ∈ users, u.id = t.user_id) ∧ t ∈ db') := by
  by_cases h : (users.filter fun u => u.id = input.user_id).length = 0
  · have habs : ¬ ∃ u ∈ users, u.id = input.user_id := by
      rw [List.length_eq_zero, List.filter_eq_nil_iff] at h
      rintro ⟨u, hu, hid⟩
      exact h u hu (by simpa using hid)
    constructor
    · intro _
      exact ⟨s!"User with id {input.user_id} not found", by simp [createTransaction, h]⟩
    · intro t db' hok
      simp [createTransaction, h] at hok
  · have hex : ∃ u ∈ users, u.id = input.user_id := by
      have hne : users.filter (fun u => u.id = input.user_id) ≠ [] :=
        fun hnil => h (by rw [hnil]; rfl)
      obtain ⟨u, hu⟩ := List.exists_mem_of_ne_nil _ hne
      have hu' := List.mem_filter.mp hu
      exact ⟨u, hu'.1, by simpa using hu'.2⟩
    constructor
    · intro hc
      exact absurd hex hc
    · intro t db' hok
      simp only [createTransaction, if_neg h] at hok
      obtain ⟨rfl, rfl⟩ : _ ∧ _ := by
        have := (Except.ok.injEq _ _).mp hok
        exact ⟨congrArg Prod.fst this, congrArg Prod.snd this⟩
      exact ⟨hex, List.mem_append_right _ (List.mem_singleton_self _)⟩

/-- Sample `createTransaction` input for user `"u1"`. -/
def sampleCreateIn : CreateTransactionInput :=
  ⟨"u1", TxnType.income, 5, Category.DD, none, 0⟩

/-- The row `createTransaction` inserts for `sampleCreateIn` with id 1 at
instant 0. -/
def sampleNewTxn : Txn :=
  { id := 1, user_id := "u1", type := TxnType.income, amount := 5,
    category := Category.DD, description := none,
    transaction_date := 0, created_at := 0, updated_at := 0 }

theorem createTransaction_user_check_witness :
    (∃ e, createTransaction [] [] sampleCreateIn 1 0 = Except.error e) ∧
    ((∃ u ∈ [sampleUser], u.id = sampleNewTxn.user_id) ∧
      sampleNewTxn ∈ [sampleNewTxn]) :=
  ⟨(createTransaction_user_check [] [] sampleCreateIn 1 0).1 (by simp),
   (createTransaction_user_check [sampleUser] [] sampleCreateIn 1 0).2
     sampleNewTxn [sampleNewTxn] (by rfl)⟩

/-- The JS test `transactionDate >= currentMonthStart && transactionDate < nextMonthStart`
from `getDashboardData`'s loop. -/
def inMonthWindow (monthStart nextMonthStart : Int) (t : Txn) : Bool :=
  decide (monthStart ≤ t.transaction_date) && decide (t.transaction_date < nextMonthStart)

/-- Accumulator of `getDashboardData`'s single pass over the user's
transactions. -/
structure DashState where
  totalIncome : ℚ
  totalExpenses : ℚ
  monthlyIncome : ℚ
  monthlyExpenses : ℚ
deriving DecidableEq, Repr

/-- One iteration of `getDashboardData`'s `for` loop. -/
def processDash (monthStart nextMonthStart : Int) (s : DashState) (t : Txn) : DashState :=
  match t.type with
  | TxnType.income =>
      { s with totalIncome := s.totalIncome + t.amount,
               monthlyIncome :=
                 if inMonthWindow monthStart nextMonthStart t then
                   s.monthlyIncome + t.amount
                 else s.monthlyIncome }
  | TxnType.expense =>
      { s with totalExpenses := s.totalExpenses + t.amount,
               monthlyExpenses :=
                 if inMonthWindow monthStart nextMonthStart t then
                   s.monthlyExpenses + t.amount
                 else s.monthlyExpenses }

/-- JS `Math.round(x * 100) / 100` (round half towards positive infinity). -/
def round2 (q : ℚ) : ℚ := ((⌊q * 100 + 1 / 2⌋ : Int) : ℚ) / 100

/-- Descending order on the creation timestamp, mirroring
`orderBy(desc(transactionsTable.created_at))`. -/
abbrev createdDesc (a b : Txn) : Prop := b.created_at ≤ a.created_at

instance : DecidableRel createdDesc := fun a b =>
  inferInstanceAs (Decidable (b.created_at ≤ a.created_at))

instance : IsTotal Txn createdDesc :=
  ⟨fun a b => le_total b.created_at a.created_at⟩

instance : IsTrans Txn createdDesc :=
  ⟨fun _ _ _ h1 h2 => le_trans h2 h1⟩

/-- The record returned by `getDashboardData` (`dashboardDataSchema`). -/
structure DashboardData where
  current_balance : ℚ
  total_income : ℚ
  total_expenses : ℚ
  monthly_income : ℚ
  monthly_expenses : ℚ
  recent_transactions : List Txn
deriving DecidableEq, Repr

/-- `getDashboardData` from `handlers/get_dashboard_data.ts`: one pass over the
user's transactions accumulating all-time and current-month sums (the month
window is half-open), each aggregate rounded to two decimals, plus the five
most recently created transactions ordered by creation time descending. -/
def getDashboardData (txns : List Txn) (userId : String)
    (monthStart nextMonthStart : Int) : DashboardData :=
  let allTransactions := txns.filter fun t => t.user_id = userId
  let st := allTransactions.foldl (processDash monthStart nextMonthStart) ⟨0, 0, 0, 0⟩
  let recentTransactions := (List.insertionSort createdDesc allTransactions).take 5
  { current_balance := round2 (st.totalIncome - st.totalExpenses)
    total_income := round2 st.totalIncome
    total_expenses := round2 st.totalExpenses
    monthly_income := round2 st.monthlyIncome
    monthly_expenses := round2 st.monthlyExpenses
    recent_transactions := recentTransactions }

/-- Composing two filters is filtering by the conjunction of the tests. -/
theorem filter_filter_and (l : List Txn) (p q : Txn → Bool) :
    (l.filter p).filter q = l.filter fun t => p t && q t := by
  induction l with
  | nil => rfl
  | cons t r ih => by_cases hp : p t <;> by_cases hq : q t <;> simp [hp, hq, ih]

/-- The dashboard loop accumulates each monthly sum as the sum of the amounts
of the transactions of the matching type inside the month window. -/
theorem dash_foldl_monthly (ms nms : Int) (l : List Txn) (s : DashState) :
    (l.foldl (processDash ms nms) s).monthlyIncome =
      s.monthlyIncome +
        ((l.filter fun t => (t.type == TxnType.income) && inMonthWindow ms nms t).map
          Txn.amount).sum ∧
    (l.foldl (processDash ms nms) s).monthlyExpenses =
      s.monthlyExpenses +
        ((l.filter fun t => (t.type == TxnType.expense) && inMonthWindow ms nms t).map
          Txn.amount).sum := by
  induction l generalizing s with
  | nil => simp
  | cons t r ih =>
      cases ht : t.type <;> cases hw : inMonthWindow ms nms t <;>
        · obtain ⟨ih1, ih2⟩ := ih (processDash ms nms s t)
          simp [processDash, ht, hw, List.filter_cons] at ih1 ih2 ⊢
          refine ⟨?_, ?_⟩ <;> first
            | (rw [ih1]; try ring)
            | (rw [ih2]; try ring)

/-- C6: the dashboard's monthly sums range over exactly the half-open window
`[monthStart, nextMonthStart)`: they are the (rounded) sums of the user's
transactions whose `inMonthWindow` test holds, a transaction dated exactly at
`nextMonthStart` never passes the test, and one dated exactly at `monthStart`
passes it precisely when the window is non-degenerate. -/
theorem dashboard_monthly_halfopen (txns : List Txn) (uid : String) (ms nms : Int) :
    (getDashboardData txns uid ms nms).monthly_income =
      round2 (((txns.filter fun t =>
        decide (t.user_id = uid) &&
          ((t.type == TxnType.income) && inMonthWindow ms nms t)).map Txn.amount).sum) ∧
    (getDashboardData txns uid ms nms).monthly_expenses =
      round2 (((txns.filter fun t =>
        decide (t.user_id = uid) &&
          ((t.type == TxnType.expense) && inMonthWindow ms nms t)).map Txn.amount).sum) ∧
    (∀ t : Txn, t.transaction_date = nms → inMonthWindow ms nms t = false) ∧
    (∀ t : Txn, t.transaction_date = ms → inMonthWindow ms nms t = decide (ms < nms)) := by
  obtain ⟨h1, h2⟩ :=
    dash_foldl_monthly ms nms (txns.filter fun t => t.user_id = uid) ⟨0, 0, 0, 0⟩
  refine ⟨?_, ?_, ?_, ?_⟩
  · simp only [getDashboardData, h1, zero_add,
      filter_filter_and txns (fun t => decide (t.user_id = uid))
        (fun t => (t.type == TxnType.income) && inMonthWindow ms nms t)]
  · simp only [getDashboardData, h2, zero_add,
      filter_filter_and txns (fun t => decide (t.user_id = uid))
        (fun t => (t.type == TxnType.expense) && inMonthWindow ms nms t)]
  · intro t hd
    simp [inMonthWindow, hd]
  · intro t hd
    simp [inMonthWindow, hd]

/-- C7: the dashboard's `recent_transactions` list holds at most 5 of the
user's transactions, is ordered by creation time descending, and consists of
the most recently created ones: every user transaction left out has a creation
time no later than every listed one. -/
theorem dashboard_recent_transactions (txns : List Txn) (uid : String)
    (ms nms : Int) :
    ∃ rest : List Txn,
      (txns.filter fun t => t.user_id = uid).Perm
        ((getDashboardData txns uid ms nms).recent_transactions ++ rest) ∧
      (getDashboardData txns uid ms nms).recent_transactions.length ≤ 5 ∧
      (getDashboardData txns uid ms nms).recent_transactions.Pairwise
        (fun a b => b.created_at ≤ a.created_at) ∧
      ∀ s ∈ rest, ∀ t ∈ (getDashboardData txns uid ms nms).recent_transactions,
        s.created_at ≤ t.created_at := by
  have hrt : (getDashboardData txns uid ms nms).recent_transactions =
      (List.insertionSort createdDesc (txns.filter fun t => t.user_id = uid)).take 5 := rfl
  refine ⟨(List.insertionSort createdDesc (txns.filter fun t => t.user_id = uid)).drop 5,
    ?_, ?_, ?_, ?_⟩
  · rw [hrt, List.take_append_drop]
    exact (List.perm_insertionSort createdDesc _).symm
  · rw [hrt]
    exact List.length_take_le _ _
  · rw [hrt]
    exact (List.sorted_insertionSort createdDesc _).sublist (List.take_sublist _ _)
  · intro s hs t ht
    rw [hrt] at ht
    have hsorted : List.Pairwise createdDesc
        ((List.insertionSort createdDesc (txns.filter fun t => t.user_id = uid)).take 5 ++
          (List.insertionSort createdDesc (txns.filter fun t => t.user_id = uid)).drop 5) := by
      rw [List.take_append_drop]
      exact List.sorted_insertionSort createdDesc _
    exact (List.pairwise_append.mp hsorted).2.2 t ht s hs

/-- Input of `updateNote` (`updateNoteInputSchema`): no user identifier, only
the note id and optional new title/content. -/
structure UpdateNoteInput where
  id : Nat
  title : Option String
  content : Option String
deriving DecidableEq, Repr

/-- The `updateData` application of the implemented `updateNote`: `updated_at`
is always set to the current instant; `title`/`content` change only when the
input supplies them. -/
def applyNoteUpd (input : UpdateNoteInput) (now : Int) (n : Note) : Note :=
  { n with updated_at := now,
           title := match input.title with
             | some t => t
             | none => n.title,
           content := match input.content with
             | some c => c
             | none => n.content }

/-- `updateNote` from `src/unnamed/part_014` (the file `handlers/update_note.ts`
is an explicit placeholder): looks the note up by id alone (no ownership
check); if absent it throws, otherwise it writes `updateData` into every row
with that id and returns the (first) updated row together with the updated
table. -/
def updateNote (notes : List Note) (input : UpdateNoteInput) (now : Int) :
    Except String (Note × List Note) :=
  match notes.find? (fun n => n.id == input.id) with
  | none =>
      let nid := input.id
      Except.error s!"Note with id {nid} not found"
  | some n0 =>
      Except.ok (applyNoteUpd input now n0,
        notes.map fun m => if m.id == input.id then applyNoteUpd input now m else m)

/-- C8: updating an existing note with neither a `title` nor a `content` field
succeeds, and the returned (and stored) note keeps its id, owner, title,
content and creation time while `updated_at` moves strictly past its prior
value (the call instant is after the stored timestamp). -/
theorem updateNote_touch_refreshes_updated_at (notes : List Note)
    (input : UpdateNoteInput) (now : Int) (n : Note)
    (hfind : notes.find? (fun m => m.id == input.id) = some n)
    (ht : input.title = none) (hc : input.content = none)
    (hnow : n.updated_at < now) :
    ∃ st, updateNote notes input now = Except.ok (applyNoteUpd input now n, st) ∧
      (applyNoteUpd input now n).updated_at > n.updated_at ∧
      (applyNoteUpd input now n).title = n.title ∧
      (applyNoteUpd input now n).content = n.content ∧
      (applyNoteUpd input now n).user_id = n.user_id ∧
      (applyNoteUpd input now n).id = n.id ∧
      (applyNoteUpd input now n).created_at = n.created_at ∧
      applyNoteUpd input now n ∈ st := by
  have hid : (n.id == input.id) = true := by
    simpa using List.find?_some hfind
  have hmem : n ∈ notes := List.mem_of_find?_eq_some hfind
  refine ⟨notes.map fun m => if m.id == input.id then applyNoteUpd input now m else m,
    ?_, ?_, ?_, ?_, ?_, ?_, ?_, ?_⟩
  · simp only [updateNote, hfind]
  · simpa [applyNoteUpd] using hnow
  · simp [applyNoteUpd, ht]
  · simp [applyNoteUpd, hc]
  · simp [applyNoteUpd]
  · simp [applyNoteUpd]
  · simp [applyNoteUpd]
  · have := List.mem_map_of_mem
      (f := fun m => if m.id == input.id then applyNoteUpd input now m else m) hmem
    simpa [hid] using this

theorem updateNote_touch_refreshes_updated_at_witness :
    ∃ st, updateNote [aliceNote] ⟨1, none, none⟩ 7 =
        Except.ok (applyNoteUpd ⟨1, none, none⟩ 7 aliceNote, st) ∧
      (applyNoteUpd ⟨1, none, none⟩ 7 aliceNote).updated_at > aliceNote.updated_at ∧
      (applyNoteUpd ⟨1, none, none⟩ 7 aliceNote).title = aliceNote.title ∧
      (applyNoteUpd ⟨1, none, none⟩ 7 aliceNote).content = aliceNote.content ∧
      (applyNoteUpd ⟨1, none, none⟩ 7 aliceNote).user_id = aliceNote.user_id ∧
      (applyNoteUpd ⟨1, none, none⟩ 7 aliceNote).id = aliceNote.id ∧
      (applyNoteUpd ⟨1, none, none⟩ 7 aliceNote).created_at = aliceNote.created_at ∧
      applyNoteUpd ⟨1, none, none⟩ 7 aliceNote ∈ st :=
  updateNote_touch_refreshes_updated_at [aliceNote] ⟨1, none, none⟩ 7 aliceNote
    (by rfl) rfl rfl (by decide)

/-- Input of `updateTransaction` (`updateTransactionInputSchema`): the record
id plus optional new field values — note there is no user identifier field.
`description` is nullable-and-optional, hence `Option (Option String)`. -/
structure UpdateTransactionInput where
  id : Nat
  type : Option TxnType
  amount : Option ℚ
  category : Option Category
  description : Option (Option String)
  transaction_date : Option Int
deriving DecidableEq, Repr

/-- The `updateData` application of `updateTransaction`: `updated_at` is always
set to the current instant; each data field changes only when supplied. -/
def applyTxnUpd (input : UpdateTransactionInput) (now : Int) (t : Txn) : Txn :=
  { t with updated_at := now,
           type := input.type.getD t.type,
           amount := input.amount.getD t.amount,
           category := input.category.getD t.category,
           description := input.description.getD t.description,
           transaction_date := input.transaction_date.getD t.transaction_date }

/-- `updateTransaction` from `handlers/update_transaction.ts`: looks the
transaction up by `id` alone — there is no ownership condition anywhere in
the query; if absent it throws "Transaction not found", otherwise it writes
`updateData` into every row with that id and returns the (first) updated row
together with the updated table. -/
def updateTransaction (txns : List Txn) (input : UpdateTransactionInput)
    (now : Int) : Except String (Txn × List Txn) :=
  match txns.find? (fun x => x.id == input.id) with
  | none => Except.error "Transaction not found"
  | some t0 =>
      Except.ok (applyTxnUpd input now t0,
        txns.map fun m => if m.id == input.id then applyTxnUpd input now m else m)

/-- C9: `updateTransaction` checks no ownership: whenever any transaction with
the input id exists — whoever its `user_id` says owns it — the update is
applied and succeeds, the stored owner being kept unchanged.  (The input type
`UpdateTransactionInput` carries no user identifier at all, so the behaviour
cannot depend on a caller identity.) -/
theorem updateTransaction_no_ownership_check (txns : List Txn)
    (input : UpdateTransactionInput) (now : Int) (t : Txn)
    (hfind : txns.find? (fun x => x.id == input.id) = some t) :
    ∃ db', updateTransaction txns input now =
        Except.ok (applyTxnUpd input now t, db') ∧
      (applyTxnUpd input now t).user_id = t.user_id ∧
      (applyTxnUpd input now t).id = t.id := by
  refine ⟨txns.map fun m => if m.id == input.id then applyTxnUpd input now m else m,
    ?_, ?_, ?_⟩
  · simp only [updateTransaction, hfind]
  · simp [applyTxnUpd]
  · simp [applyTxnUpd]

theorem updateTransaction_no_ownership_check_witness :
    ∃ db', updateTransaction [aliceTxn] ⟨1, none, none, none, none, none⟩ 7 =
        Except.ok (applyTxnUpd ⟨1, none, none, none, none, none⟩ 7 aliceTxn, db') ∧
      (applyTxnUpd ⟨1, none, none, none, none, none⟩ 7 aliceTxn).user_id =
        aliceTxn.user_id ∧
      (applyTxnUpd ⟨1, none, none, none, none, none⟩ 7 aliceTxn).id = aliceTxn.id :=
  updateTransaction_no_ownership_check [aliceTxn]
    ⟨1, none, none, none, none, none⟩ 7 aliceTxn (by rfl)

/-- Input of `getUserNotes` (`getUserNotesInputSchema`). -/
structure GetUserNotesInput where
  user_id : String
  limit : Option Nat
  offset : Option Nat
deriving DecidableEq, Repr

/-- JS `x || d` on an optional non-negative integer: `undefined` and `0` both
fall back to the default. -/
def jsOrDefault (x : Option Nat) (d : Nat) : Nat :=
  match x with
  | none => d
  | some v => if v = 0 then d else v

/-- `getUserNotes` from `handlers/get_notes.ts`: `limit = input.limit || 1000`,
`offset = input.offset || 0`, then the user's notes ordered by creation time
descending with the offset dropped and the limit taken. -/
def getUserNotes (notes : List Note) (input : GetUserNotesInput) : List Note :=
  let limit := jsOrDefault input.limit 1000
  let offset := jsOrDefault input.offset 0
  (((List.insertionSort (fun a b : Note => b.created_at ≤ a.created_at)
      (notes.filter fun n => n.user_id = input.user_id)).drop offset).take limit)

/-- C10: with no explicit limit, `getUserNotes` returns at most 1000 notes
(whatever the user owns), and an omitted offset behaves exactly like an
explicit offset of 0. -/
theorem getUserNotes_default_limit (notes : List Note) (uid : String) :
    (getUserNotes notes ⟨uid, none, none⟩).length ≤ 1000 ∧
    (∀ lim : Option Nat,
      getUserNotes notes ⟨uid, lim, none⟩ = getUserNotes notes ⟨uid, lim, some 0⟩) := by
  constructor
  · exact List.length_take_le _ _
  · intro lim
    rfl
